import Mathlib

/-!
Verification development for a file backup and recovery system.

The C++ sources are shallowly embedded here:
* `BackupMetadata` (src/BackupMetadata.cpp): the in-memory backup record
  store, keyed by backup id, with chain traversal, validation, cleanup,
  statistics and JSON persistence.  The map `backups_` is modelled as an
  association list `Store` (keys unique in every store the program builds);
  `std::map::find` becomes `findInfo`, `backups_[k] = v` becomes
  `insertInfo`.
* `FileTracker` (src/FileTracker.cpp): two generations of directory
  snapshots and the change-detection diffs.
* `BackupManager` (src/BackupManager.cpp): full/incremental backup record
  construction, the transform-pipeline file copy and the restore path.
  Filesystem reads are passed in as explicit data (the scanned states,
  existence flags, generated ids), so each function is the pure content of
  the corresponding C++ routine.
* `Encryptor` (src/Encryptor.cpp): the key/IV state machine and the
  encrypted-file layout.  The AES-256-CBC body itself is kept abstract as a
  function parameter; the header, IV handling and state transitions follow
  the source.

Timestamps (`std::chrono::system_clock::time_point`) are modelled as `Nat`,
byte buffers as `List Nat`, sizes (`std::uintmax_t`) as `Nat`.
-/

namespace BackupSystem

/-- Model of `BackupMetadata::FileEntry` (BackupMetadata.h lines 14-22). -/
structure FileEntry where
  relativePath : String
  checksum : String
  size : Nat
  lastModified : Nat
  compressed : Bool
  encrypted : Bool
  compressedSize : Nat
deriving DecidableEq, Repr

/-- Model of `BackupMetadata::BackupInfo` (BackupMetadata.h lines 24-37). -/
structure BackupInfo where
  backupId : String
  backupType : String
  timestamp : Nat
  sourcePath : String
  parentBackupId : String
  files : List FileEntry
  totalSize : Nat
  compressedSize : Nat
  encrypted : Bool
  encryptionMethod : String
  compressionMethod : String
  compressionLevel : Int
deriving DecidableEq, Repr

/-- The `backups_` map of `BackupMetadata`, as an association list from
backup id to record.  The program only ever inserts through `insertInfo`,
which keeps keys unique, but no lemma below assumes uniqueness unless
stated. -/
abbrev Store := List (String × BackupInfo)

/-- Model of `backups_.find(id)` (used throughout BackupMetadata.cpp): first record
with the given key, if any. -/
def findInfo : Store → String → Option BackupInfo
  | [], _ => none
  | p :: rest, id => if p.1 = id then some p.2 else findInfo rest id

/-- Model of `backups_[id] = info` (std::map subscript assignment): overwrite the
record at the key if present, otherwise append a new entry. -/
def insertInfo : Store → String → BackupInfo → Store
  | [], id, info => [(id, info)]
  | p :: rest, id, info =>
    if p.1 = id then (id, info) :: rest else p :: insertInfo rest id info

/-- Model of `BackupMetadata::validateBackupInfo` (BackupMetadata.cpp lines 527-537):
non-empty id, type and source path, and type one of "full"/"incremental". -/
def validateBackupInfo (info : BackupInfo) : Bool :=
  if info.backupId = "" ∨ info.backupType = "" ∨ info.sourcePath = "" then false
  else if info.backupType ≠ "full" ∧ info.backupType ≠ "incremental" then false
  else true

/-- Model of `BackupMetadata::createBackupInfo` (BackupMetadata.cpp lines 13-20):
validate, then assign through the map subscript (which overwrites any
record already stored under the same id).  Returns the C++ return value
paired with the store after the call. -/
def createBackupInfo (s : Store) (info : BackupInfo) : Bool × Store :=
  if validateBackupInfo info then (true, insertInfo s info.backupId info)
  else (false, s)

/-- One iteration of the `while` loop of `BackupMetadata::getBackupChain`
(BackupMetadata.cpp lines 120-135), with explicit fuel.  Per iteration: stop
on an empty or unknown id, otherwise push the id, move to its parent, and
stop if the parent occurs in the chain excluding the element just pushed
(the C++ searches `chain.begin() .. chain.end()-1`). -/
def chainAux (s : Store) : Nat → String → List String → List String
  | 0, _, chain => chain
  | fuel + 1, currentId, chain =>
    if currentId = "" then chain
    else
      match findInfo s currentId with
      | none => chain
      | some info =>
        let chain2 := chain ++ [currentId]
        let next := info.parentBackupId
        if next ∈ chain then chain2
        else chainAux s fuel next chain2

/-- Model of `BackupMetadata::getBackupChain` (BackupMetadata.cpp lines 115-138).
The C++ loop pushes at most `s.length + 1` ids before its cycle check
fires, so fuel `s.length + 1` reproduces it exactly (stability is proved
below). -/
def getBackupChain (s : Store) (backupId : String) : List String :=
  chainAux s (s.length + 1) backupId []

/-- The predicate of the reverse scan in `BackupMetadata::getFullBackupId`:
the id is present and its record's type is "full". -/
def isFullRecord (s : Store) (id : String) : Bool :=
  match findInfo s id with
  | some info => info.backupType == "full"
  | none => false

/-- Model of `BackupMetadata::getFullBackupId` (BackupMetadata.cpp lines 140-152):
walk the chain from its far (root) end and return the first id whose record
is a full backup, or "" if none. -/
def getFullBackupId (s : Store) (incrementalBackupId : String) : String :=
  match (getBackupChain s incrementalBackupId).reverse.find? (isFullRecord s) with
  | some id => id
  | none => ""

/-- The condition collecting `toRemove` in
`BackupMetadata::cleanupOrphanedEntries` (BackupMetadata.cpp lines 406-414):
an incremental record with a non-empty parent id that is absent from the
store. -/
def orphanedIn (s : Store) (p : String × BackupInfo) : Bool :=
  p.2.backupType == "incremental" && p.2.parentBackupId != "" &&
    (findInfo s p.2.parentBackupId).isNone

/-- Model of `BackupMetadata::cleanupOrphanedEntries` (BackupMetadata.cpp lines
402-421): the removal set is computed against the store as it is at the
start of the call, then erased; equivalently, keep exactly the entries not
orphaned in the original store. -/
def cleanupOrphanedEntries (s : Store) : Store :=
  s.filter (fun p => ! orphanedIn s p)

/-- Model of `BackupMetadata::getCompressionRatio` (BackupMetadata.cpp lines
328-337): 0 for an unknown id, 0 when `totalSize` is not positive,
otherwise `compressedSize / totalSize` (real division, modelled in ℚ). -/
def getCompressionRatio (s : Store) (backupId : String) : ℚ :=
  match findInfo s backupId with
  | some info =>
    if 0 < info.totalSize then (info.compressedSize : ℚ) / (info.totalSize : ℚ)
    else 0
  | none => 0

/-- Model of `BackupMetadata::importFromJson` (BackupMetadata.cpp lines 371-400),
with the filesystem made explicit: `pathExists` is
`Utils::pathExists(filename)`, and `doc` is the parsed document —
`none` when opening or parsing fails before the store is touched, `some
records` for a well-formed document (records that failed to parse
record-by-record arrive with an empty `backupId` and are skipped, lines
387-392).  If the file is missing the function returns `true` at line 374
without touching `backups_`.  Result: C++ return value and the store after
the call, given the store `prior` before it. -/
def importFromJson (pathExists : Bool) (doc : Option (List BackupInfo))
    (prior : Store) : Bool × Store :=
  if !pathExists then (true, prior)
  else
    match doc with
    | none => (false, prior)
    | some records =>
      (true, (records.filter (fun info => info.backupId ≠ "")).map
        (fun info => (info.backupId, info)))

/-- Model of `FileTracker::FileInfo` (FileTracker.h lines 14-20). -/
structure FileInfo where
  path : String
  size : Nat
  lastModified : Nat
  checksum : String
  isDirectory : Bool
deriving DecidableEq, Repr

/-- A snapshot generation (`currentState_` / `previousState_`), keyed by
path. -/
abbrev Generation := List (String × FileInfo)

/-- Map lookup on a generation. -/
def findFile : Generation → String → Option FileInfo
  | [], _ => none
  | p :: rest, path => if p.1 = path then some p.2 else findFile rest path

/-- Model of `FileTracker::compareFileInfo` (FileTracker.cpp lines 284-302): equal
size, equal modification time, and for non-directories equal checksum. -/
def compareFileInfo (current previous : FileInfo) : Bool :=
  if current.size ≠ previous.size then false
  else if current.lastModified ≠ previous.lastModified then false
  else if current.isDirectory then true
  else current.checksum == previous.checksum

/-- Model of `FileTracker::loadPreviousState` (FileTracker.cpp lines 55-91), with
the filesystem explicit as in `importFromJson`.  A missing file returns
`true` at line 58 without touching `previousState_`; a parsed document
replaces it. -/
def loadPreviousState (pathExists : Bool) (doc : Option (List FileInfo))
    (prior : Generation) : Bool × Generation :=
  if !pathExists then (true, prior)
  else
    match doc with
    | none => (false, prior)
    | some files => (true, files.map (fun info => (info.path, info)))

/-- Model of `FileTracker::getChangedFiles` (FileTracker.cpp lines 126-148): every
current path that is new (absent from previous) or modified (present but
`compareFileInfo` false). -/
def getChangedFiles : Generation → Generation → List String
  | [], _ => []
  | p :: rest, prev =>
    match findFile prev p.1 with
    | none => p.1 :: getChangedFiles rest prev
    | some previousInfo =>
      if compareFileInfo p.2 previousInfo then getChangedFiles rest prev
      else p.1 :: getChangedFiles rest prev

/-- Model of `FileTracker::getNewFiles` (FileTracker.cpp lines 150-162): current
paths absent from previous. -/
def getNewFiles : Generation → Generation → List String
  | [], _ => []
  | p :: rest, prev =>
    match findFile prev p.1 with
    | none => p.1 :: getNewFiles rest prev
    | some _ => getNewFiles rest prev

/-- Model of `FileTracker::getModifiedFiles` (FileTracker.cpp lines 178-195):
current paths present in previous with `compareFileInfo` false. -/
def getModifiedFiles : Generation → Generation → List String
  | [], _ => []
  | p :: rest, prev =>
    match findFile prev p.1 with
    | none => getModifiedFiles rest prev
    | some previousInfo =>
      if compareFileInfo p.2 previousInfo then getModifiedFiles rest prev
      else p.1 :: getModifiedFiles rest prev

/-- Model of `BackupManager::BackupOptions` (BackupManager.h lines 19-27). -/
structure BackupOptions where
  sourcePath : String
  destPath : String
  enableCompression : Bool := true
  enableEncryption : Bool := false
  encryptionKey : String := ""
  incremental : Bool := false
  compressionLevel : Int := 6
deriving DecidableEq, Repr

/-- The file list assembled by `BackupManager::createIncrementalBackup`
(BackupManager.cpp lines 183-190): the concatenation
`changedFiles ++ newFiles ++ modifiedFiles` of the three tracker diffs,
taken in that order via the three `insert` calls. -/
def incrementalFilesToBackup (current previous : Generation) : List String :=
  getChangedFiles current previous ++ getNewFiles current previous ++
    getModifiedFiles current previous

/-- The parent-id computation of `BackupManager::createIncrementalBackup`
(BackupManager.cpp lines 151-172): if a prior backup directory exists and
its `file_state.db` and `backup_metadata.json` are present, the variable
`parentBackupId` is assigned `Utils::generateUUID()` — a freshly generated
random id (line 169; the prior backup's metadata is loaded into
`tempMetadata` but its actual id is never read).  Otherwise the variable
keeps its empty initial value.  `freshUUID` stands for the value returned
by `Utils::generateUUID()`. -/
def selectIncrementalParentId (priorBackups : List String)
    (stateFileExists metadataFileExists : Bool) (freshUUID : String) : String :=
  match priorBackups.getLast? with
  | none => ""
  | some _ =>
    if stateFileExists then
      if metadataFileExists then freshUUID else ""
    else ""

/-- The record constructed by `BackupManager::createIncrementalBackup`
(BackupManager.cpp lines 207-217 and the per-file loop 223-254): type
"incremental", the given parent id, and one `FileEntry` per element of
`filesToBackup` in order, with the aggregate sizes summed over the
entries.  `entryFor` stands for the filesystem reads of the loop body
(size, mtime, checksum, stored size of each path). -/
def incrementalBackupInfo (newId parentId : String) (timestamp : Nat)
    (options : BackupOptions) (filesToBackup : List String)
    (entryFor : String → FileEntry) : BackupInfo :=
  let entries := filesToBackup.map entryFor
  { backupId := newId
    backupType := "incremental"
    timestamp := timestamp
    sourcePath := options.sourcePath
    parentBackupId := parentId
    files := entries
    totalSize := (entries.map (fun e => e.size)).sum
    compressedSize := (entries.map (fun e => e.compressedSize)).sum
    encrypted := options.enableEncryption
    encryptionMethod := ""
    compressionMethod := if options.enableCompression then "zlib" else "none"
    compressionLevel := options.compressionLevel }

/-- Model of `BackupManager::restoreFileInternal` (BackupManager.cpp lines 378-395)
acting on file content: the function only calls `Utils::copyFile`, so the
restored bytes are the stored bytes verbatim; the comment at lines 385-387
notes that decompression/decryption "would need to be determined from the
metadata" and is not performed. -/
def restoreFileInternal (storedContent : List Nat) : List Nat :=
  storedContent

/-- The ASCII bytes of the `"ENCRYPT1"` tag written by
`Encryptor::encryptFileInternal` (Encryptor.cpp line 338). -/
def encryptionHeader : List Nat := [69, 78, 67, 82, 89, 80, 84, 49]

/-- Output layout of `Encryptor::encryptFileInternal` (Encryptor.cpp lines
336-345): the 8-byte tag, then the instance IV, then the ciphertext body
produced by the AES-256-CBC loop (kept abstract here as the already
computed `cipherBody`). -/
def encryptedFileOutput (iv cipherBody : List Nat) : List Nat :=
  encryptionHeader ++ iv ++ cipherBody

/-- The `key_` / `iv_` state of an `Encryptor` (Encryptor.h). -/
structure EncryptorState where
  key : List Nat
  iv : List Nat
deriving DecidableEq, Repr

/-- Model of `Encryptor::Encryptor` together with `initializeEncryption`
(Encryptor.cpp lines 13-16 and 254-258): construction draws 16 random
bytes once and stores them as `iv_`.  `randomBytes` stands for the
`RAND_bytes` output of that single call; no key is set yet. -/
def encryptorInit (randomBytes : List Nat) : EncryptorState :=
  { key := [], iv := randomBytes }

/-- Model of `Encryptor::encryptFile` / `encryptFileInternal` (Encryptor.cpp lines
83-108 and 336-388) acting on content: fails on an empty key, otherwise
writes the tag, the current `iv_`, and the cipher body computed from
`key_`, `iv_` and the plaintext (`cipherOf` abstracts the AES-256-CBC
loop).  No statement in the source regenerates `iv_`, so the state after
the call is the state before it. -/
def encryptFile (cipherOf : List Nat → List Nat → List Nat → List Nat)
    (st : EncryptorState) (plaintext : List Nat) :
    Option (List Nat) × EncryptorState :=
  if st.key = [] then (none, st)
  else (some (encryptedFileOutput st.iv (cipherOf st.key st.iv plaintext)), st)

/-! ## Sample records used in concrete instantiations -/

/-- A well-formed full backup record with the given id. -/
def mkFullInfo (id : String) : BackupInfo :=
  { backupId := id, backupType := "full", timestamp := 1, sourcePath := "/data",
    parentBackupId := "", files := [], totalSize := 30, compressedSize := 12,
    encrypted := false, encryptionMethod := "", compressionMethod := "zlib",
    compressionLevel := 6 }

/-- A well-formed incremental backup record with the given id and parent. -/
def mkIncrementalInfo (id parentId : String) : BackupInfo :=
  { mkFullInfo id with backupType := "incremental", parentBackupId := parentId }

/-! ## Lemmas on the store primitives -/

/-- Looking up the key just assigned returns the assigned record. -/
theorem findInfo_insertInfo_self (s : Store) (id : String) (info : BackupInfo) :
    findInfo (insertInfo s id info) id = some info := by
  induction s with
  | nil => simp [insertInfo, findInfo]
  | cons p rest ih =>
    by_cases h : p.1 = id
    · simp [insertInfo, h, findInfo]
    · simp [insertInfo, h, findInfo, ih]

/-- Assigning one key leaves every other key's lookup unchanged. -/
theorem findInfo_insertInfo_ne (s : Store) (id k : String) (info : BackupInfo)
    (h : k ≠ id) : findInfo (insertInfo s id info) k = findInfo s k := by
  have hik : ¬ id = k := fun hk => h hk.symm
  induction s with
  | nil => simp [insertInfo, findInfo, hik]
  | cons p rest ih =>
    by_cases hp : p.1 = id
    · simp [insertInfo, hp, findInfo, hik]
    · simp [insertInfo, hp, findInfo, ih]

/-- A successful lookup means the key occurs among the store's keys. -/
theorem mem_keys_of_findInfo_eq_some {s : Store} {x : String} {info : BackupInfo}
    (h : findInfo s x = some info) : x ∈ s.map Prod.fst := by
  induction s with
  | nil => simp [findInfo] at h
  | cons p rest ih =>
    by_cases hp : p.1 = x
    · simp [hp]
    · simp [findInfo, hp] at h
      simp [ih h]

/-! ## C4: create on a duplicate id -/

/-- C4 counterexample: the claim says `create(r)` fails when a record with
the same id is already present and that on failure the store is unchanged.
With a record "A" already stored, creating a second valid record with id
"A" returns success and changes the store (the old record is overwritten):
`createBackupInfo` never looks for an existing id (BackupMetadata.cpp
lines 13-20 only call `validateBackupInfo`). -/
theorem C4_create_accepts_duplicate_id :
    (createBackupInfo [("A", mkFullInfo "A")] (mkIncrementalInfo "A" "P")).1 = true ∧
    (createBackupInfo [("A", mkFullInfo "A")] (mkIncrementalInfo "A" "P")).2 ≠
      [("A", mkFullInfo "A")] := by
  constructor
  · rfl
  · decide

/-- C4 (amended): `create(r)` fails exactly when `r` fails validation
(empty id, empty type, empty source path, or a type other than
"full"/"incremental"); a duplicate id is not rejected — the new record
replaces the stored one.  On failure the store is unchanged; on success the
record is stored under its id and every other key's lookup is unchanged. -/
theorem C4_create_validates_and_overwrites (s : Store) (r : BackupInfo) :
    ((r.backupId = "" ∨ r.backupType = "" ∨ r.sourcePath = "" ∨
        (r.backupType ≠ "full" ∧ r.backupType ≠ "incremental")) →
      createBackupInfo s r = (false, s)) ∧
    (r.backupId ≠ "" → r.sourcePath ≠ "" →
      (r.backupType = "full" ∨ r.backupType = "incremental") →
      (createBackupInfo s r).1 = true ∧
      findInfo (createBackupInfo s r).2 r.backupId = some r ∧
      ∀ k, k ≠ r.backupId → findInfo (createBackupInfo s r).2 k = findInfo s k) := by
  constructor
  · intro h
    have hval : validateBackupInfo r = false := by
      rcases h with h | h | h | ⟨h1, h2⟩
      · simp [validateBackupInfo, h]
      · simp [validateBackupInfo, h]
      · simp [validateBackupInfo, h]
      · simp [validateBackupInfo, h1, h2]
    simp [createBackupInfo, hval]
  · intro hid hsrc htype
    have htne : r.backupType ≠ "" := by
      rcases htype with h | h <;> simp [h]
    have hval : validateBackupInfo r = true := by
      rcases htype with h | h <;> simp [validateBackupInfo, hid, hsrc, htne, h]
    refine ⟨by simp [createBackupInfo, hval], ?_, ?_⟩
    · simp [createBackupInfo, hval, findInfo_insertInfo_self]
    · intro k hk
      simp [createBackupInfo, hval, findInfo_insertInfo_ne s r.backupId k r hk]

/-- C4 witness: the amended theorem applied to a concrete valid record
over a concrete store. -/
theorem C4_witness :
    (createBackupInfo [("A", mkFullInfo "A")] (mkIncrementalInfo "B" "A")).1 = true ∧
    findInfo (createBackupInfo [("A", mkFullInfo "A")] (mkIncrementalInfo "B" "A")).2 "B" =
      some (mkIncrementalInfo "B" "A") := by
  have h := (C4_create_validates_and_overwrites [("A", mkFullInfo "A")]
    (mkIncrementalInfo "B" "A")).2 (by decide) (by decide) (Or.inr rfl)
  exact ⟨h.1, h.2.1⟩

/-! ## C7: pruning orphans twice -/

/-- C7 counterexample: the claim says `pruneOrphans` is idempotent,
including when removing one orphaned incremental leaves another incremental
whose parent was just removed.  With I1 incremental under a missing parent
"X" and I2 incremental under I1, the first call removes only I1 (I2's
parent still exists when the removal set is computed), and a second call
then removes I2 — the two states differ. -/
theorem C7_prune_not_idempotent :
    cleanupOrphanedEntries (cleanupOrphanedEntries
        [("I1", mkIncrementalInfo "I1" "X"), ("I2", mkIncrementalInfo "I2" "I1")]) ≠
      cleanupOrphanedEntries
        [("I1", mkIncrementalInfo "I1" "X"), ("I2", mkIncrementalInfo "I2" "I1")] := by
  decide

/-- C7 (amended): one `pruneOrphans` call removes exactly the records that
are incremental with a non-empty parent id absent from the store as it was
when the call started.  It is therefore idempotent only when the first call
leaves no newly orphaned incremental (in particular when no removed record
was the parent of a surviving one); cascaded orphans, as in the
counterexample, require a second call. -/
theorem C7_prune_removes_exactly_current_orphans (s : Store) :
    (∀ p, p ∈ cleanupOrphanedEntries s ↔ p ∈ s ∧ orphanedIn s p = false) ∧
    ((∀ p ∈ cleanupOrphanedEntries s,
        orphanedIn (cleanupOrphanedEntries s) p = false) →
      cleanupOrphanedEntries (cleanupOrphanedEntries s) = cleanupOrphanedEntries s) := by
  constructor
  · intro p
    simp [cleanupOrphanedEntries, List.mem_filter]
  · intro h
    exact List.filter_eq_self.mpr (fun p hp => by simp [h p hp])

/-- C7 witness: on a store made of a full backup and one incremental whose
parent is present, pruning leaves every record and a second prune changes
nothing. -/
theorem C7_witness :
    (("F", mkFullInfo "F") ∈ cleanupOrphanedEntries
        [("F", mkFullInfo "F"), ("I", mkIncrementalInfo "I" "F")] ↔
      ("F", mkFullInfo "F") ∈
        ([("F", mkFullInfo "F"), ("I", mkIncrementalInfo "I" "F")] : Store) ∧
      orphanedIn [("F", mkFullInfo "F"), ("I", mkIncrementalInfo "I" "F")]
        ("F", mkFullInfo "F") = false) ∧
    cleanupOrphanedEntries (cleanupOrphanedEntries
        [("F", mkFullInfo "F"), ("I", mkIncrementalInfo "I" "F")]) =
      cleanupOrphanedEntries [("F", mkFullInfo "F"), ("I", mkIncrementalInfo "I" "F")] := by
  have h := C7_prune_removes_exactly_current_orphans
    [("F", mkFullInfo "F"), ("I", mkIncrementalInfo "I" "F")]
  exact ⟨h.1 ("F", mkFullInfo "F"), h.2 (by decide)⟩

/-! ## C8: loading from a missing path -/

/-- C8 counterexample: the claim says that for every prior in-memory state,
loading from a missing path returns success and leaves the loaded state
empty.  `importFromJson` on a missing file returns at
BackupMetadata.cpp line 374 before `backups_.clear()` is reached, so a
non-empty prior store stays as it was — not empty.  The same early return
is at FileTracker.cpp line 58. -/
theorem C8_import_missing_file_keeps_prior_state :
    (importFromJson false none [("B", mkFullInfo "B")]).1 = true ∧
    (importFromJson false none [("B", mkFullInfo "B")]).2 ≠ ([] : Store) := by
  decide

/-- C8 (amended): loading from a path that does not exist returns success
and leaves the in-memory state exactly as it was (it is not cleared); the
loaded state is therefore empty only when it was already empty, as on a
freshly constructed tracker or metadata store. -/
theorem C8_load_missing_preserves_state (docT : Option (List FileInfo))
    (docM : Option (List BackupInfo)) (prevGen : Generation) (prior : Store) :
    loadPreviousState false docT prevGen = (true, prevGen) ∧
    importFromJson false docM prior = (true, prior) ∧
    (prevGen = [] → (loadPreviousState false docT prevGen).2 = []) ∧
    (prior = [] → (importFromJson false docM prior).2 = []) := by
  refine ⟨rfl, rfl, ?_, ?_⟩ <;> intro h <;> simp [loadPreviousState, importFromJson, h]

/-- C8 witness: the amended theorem at a freshly constructed (empty)
tracker and store. -/
theorem C8_witness :
    loadPreviousState false none ([] : Generation) = (true, []) ∧
    (importFromJson false none ([] : Store)).2 = [] := by
  have h := C8_load_missing_preserves_state none none ([] : Generation) ([] : Store)
  exact ⟨h.1, h.2.2.2 rfl⟩

/-! ## C10: totality of the compression ratio -/

/-- C10: `getCompressionRatio` is total and never divides by zero: it
returns 0 when the id is not in the store, returns 0 when the record's
`totalSize` is 0, and otherwise returns `compressedSize / totalSize`. -/
theorem C10_compression_ratio_total (s : Store) (backupId : String) :
    (findInfo s backupId = none → getCompressionRatio s backupId = 0) ∧
    (∀ info, findInfo s backupId = some info →
      (info.totalSize = 0 → getCompressionRatio s backupId = 0) ∧
      (0 < info.totalSize → getCompressionRatio s backupId =
        (info.compressedSize : ℚ) / (info.totalSize : ℚ))) := by
  constructor
  · intro h
    simp [getCompressionRatio, h]
  · intro info h
    constructor
    · intro hz
      simp [getCompressionRatio, h, hz]
    · intro hpos
      simp [getCompressionRatio, h, hpos]

/-- C10 witness: the ratio of the sample record (30 original bytes stored
as 12) is 12/30 = 2/5, and a missing id gives 0. -/
theorem C10_witness :
    getCompressionRatio [("F", mkFullInfo "F")] "F" = (12 : ℚ) / 30 ∧
    getCompressionRatio [("F", mkFullInfo "F")] "missing" = 0 := by
  constructor
  · exact ((C10_compression_ratio_total [("F", mkFullInfo "F")] "F").2
      (mkFullInfo "F") rfl).2 (by decide)
  · exact (C10_compression_ratio_total [("F", mkFullInfo "F")] "missing").1 rfl

/-! ## The chain walk: invariant, termination, cycle behaviour -/

/-- Unfolding equation for one iteration of the chain walk. -/
theorem chainAux_succ (s : Store) (fuel : Nat) (cur : String) (chain : List String) :
    chainAux s (fuel + 1) cur chain =
      if cur = "" then chain
      else
        match findInfo s cur with
        | none => chain
        | some info =>
          if info.parentBackupId ∈ chain then chain ++ [cur]
          else chainAux s fuel info.parentBackupId (chain ++ [cur]) := rfl

/-- Invariant of the C++ loop: the accumulated chain has pairwise distinct
ids, each id in it was looked up successfully, the current id does not
occur in the chain except possibly as its last element, and it occurs
there only for a record that is its own parent. -/
def ChainInv (s : Store) (cur : String) (chain : List String) : Prop :=
  chain.Nodup ∧ (∀ x ∈ chain, ∃ info, findInfo s x = some info) ∧
    cur ∉ chain.dropLast ∧
    (cur ∈ chain → ∃ info, findInfo s cur = some info ∧ info.parentBackupId = cur)

theorem chainInv_nil (s : Store) (cur : String) : ChainInv s cur [] := by
  simp [ChainInv]

/-- Under the invariant the chain cannot be longer than the store. -/
theorem chainInv_length_le {s : Store} {cur : String} {chain : List String}
    (inv : ChainInv s cur chain) : chain.length ≤ s.length := by
  have hsub : chain ⊆ s.map Prod.fst := by
    intro x hx
    obtain ⟨info, hinfo⟩ := inv.2.1 x hx
    exact mem_keys_of_findInfo_eq_some hinfo
  have h := (inv.1.subperm hsub).length_le
  simpa using h

/-- When the walk is about to recurse, the current id is not yet in the
chain (a repeated current id forces the self-parent case, which stops). -/
theorem chainInv_cur_not_mem {s : Store} {cur : String} {chain : List String}
    {info : BackupInfo} (inv : ChainInv s cur chain)
    (hfind : findInfo s cur = some info) (hmem : info.parentBackupId ∉ chain) :
    cur ∉ chain := by
  intro hcur
  obtain ⟨info2, hfind2, hpar⟩ := inv.2.2.2 hcur
  rw [hfind] at hfind2
  have : info2 = info := (Option.some.inj hfind2).symm
  subst this
  exact hmem (by rw [hpar]; exact hcur)

/-- The invariant is preserved across one recursing iteration. -/
theorem chainInv_step {s : Store} {cur : String} {chain : List String}
    {info : BackupInfo} (inv : ChainInv s cur chain)
    (hfind : findInfo s cur = some info) (hmem : info.parentBackupId ∉ chain) :
    ChainInv s info.parentBackupId (chain ++ [cur]) := by
  have hcur : cur ∉ chain := chainInv_cur_not_mem inv hfind hmem
  refine ⟨?_, ?_, ?_, ?_⟩
  · exact List.Nodup.append inv.1 (List.nodup_singleton cur)
      (by intro a ha hamem; simp at hamem; subst hamem; exact hcur ha)
  · intro x hx
    rcases List.mem_append.mp hx with hx | hx
    · exact inv.2.1 x hx
    · simp at hx
      subst hx
      exact ⟨info, hfind⟩
  · simpa using hmem
  · intro hpar
    rcases List.mem_append.mp hpar with hpar | hpar
    · exact absurd hpar hmem
    · simp at hpar
      exact ⟨info, by rw [hpar]; exact hfind, rfl⟩

/-- Wherever the walk stops, all of the returned chain except possibly its
last element is free of repeats. -/
theorem chainAux_dropLast_nodup (s : Store) :
    ∀ (fuel : Nat) (cur : String) (chain : List String),
      ChainInv s cur chain → (chainAux s fuel cur chain).dropLast.Nodup := by
  intro fuel
  induction fuel with
  | zero =>
    intro cur chain inv
    exact inv.1.sublist (List.dropLast_sublist chain)
  | succ fuel ih =>
    intro cur chain inv
    by_cases hcur : cur = ""
    · simpa [chainAux_succ, hcur] using inv.1.sublist (List.dropLast_sublist chain)
    · cases hfind : findInfo s cur with
      | none =>
        simpa [chainAux_succ, hcur, hfind] using inv.1.sublist (List.dropLast_sublist chain)
      | some info =>
        by_cases hmem : info.parentBackupId ∈ chain
        · simpa [chainAux_succ, hcur, hfind, hmem] using inv.1
        · have inv2 := chainInv_step inv hfind hmem
          simpa [chainAux_succ, hcur, hfind, hmem] using ih _ _ inv2

/-- Fuel irrelevance: any two fuel values large enough to cover the store
give the same walk result, which is the termination of the C++ loop. -/
theorem chainAux_fuel_eq (s : Store) :
    ∀ (f g : Nat) (cur : String) (chain : List String),
      ChainInv s cur chain → s.length < f + chain.length →
      s.length < g + chain.length →
      chainAux s f cur chain = chainAux s g cur chain := by
  intro f
  induction f with
  | zero =>
    intro g cur chain inv hf _
    have hle := chainInv_length_le inv
    omega
  | succ f ihf =>
    intro g cur chain inv hf hg
    cases g with
    | zero =>
      have hle := chainInv_length_le inv
      omega
    | succ g =>
      by_cases hcur : cur = ""
      · simp [chainAux_succ, hcur]
      · cases hfind : findInfo s cur with
        | none => simp [chainAux_succ, hcur, hfind]
        | some info =>
          by_cases hmem : info.parentBackupId ∈ chain
          · simp [chainAux_succ, hcur, hfind, hmem]
          · have inv2 := chainInv_step inv hfind hmem
            rw [chainAux_succ, chainAux_succ, if_neg hcur, if_neg hcur, hfind]
            simp only [if_neg hmem]
            exact ihf g _ _ inv2 (by simp; omega) (by simp; omega)

/-! ## C6: cycles in the chain walk -/

/-- C6 counterexample: the claim says the chain returned by
`getBackupChain` never contains a repeated id, the walk halting without
including the repeat.  For a store whose single record "A" has itself as
parent, the cycle check (which scans the chain excluding the element just
pushed) misses the repeat on the first iteration, and the walk returns
["A", "A"] — the repeat is included. -/
theorem C6_selfloop_chain_contains_repeat :
    getBackupChain [("A", mkIncrementalInfo "A" "A")] "A" = ["A", "A"] ∧
    ¬ (getBackupChain [("A", mkIncrementalInfo "A" "A")] "A").Nodup := by
  decide

/-- C6 (amended): for every store, including malformed ones whose parent
links form a cycle, the walk halts: the result is unchanged by any fuel
beyond the store size, and the returned list has no repeated id anywhere
before its last element.  A two-or-more-record cycle is cut without a
repeat, but a record that is its own parent has its id returned twice (as
adjacent last elements), as the counterexample shows. -/
theorem C6_chain_walk_halts_dropLast_nodup (s : Store) (backupId : String) :
    (∀ fuel, s.length + 1 ≤ fuel →
      chainAux s fuel backupId [] = getBackupChain s backupId) ∧
    (getBackupChain s backupId).dropLast.Nodup := by
  constructor
  · intro fuel hfuel
    unfold getBackupChain
    exact chainAux_fuel_eq s fuel (s.length + 1) backupId []
      (chainInv_nil s backupId) (by simp; omega) (by simp)
  · exact chainAux_dropLast_nodup s (s.length + 1) backupId [] (chainInv_nil s backupId)

/-- C6 witness: on the one-record self-loop store, any fuel from 2 up
yields the walk's stable result. -/
theorem C6_witness :
    chainAux [("A", mkIncrementalInfo "A" "A")] 7 "A" [] =
      getBackupChain [("A", mkIncrementalInfo "A" "A")] "A" ∧
    (getBackupChain [("A", mkIncrementalInfo "A" "A")] "A").dropLast.Nodup := by
  refine ⟨(C6_chain_walk_halts_dropLast_nodup [("A", mkIncrementalInfo "A" "A")] "A").1
    7 (by decide), (C6_chain_walk_halts_dropLast_nodup [("A", mkIncrementalInfo "A" "A")] "A").2⟩

/-! ## C5: a three-element chain -/

/-- C5: in any store holding a full backup F (empty parent), an
incremental I1 whose parent is F, and an incremental I2 whose parent is
I1, the chain of I2 is exactly [I2, I1, F] and the full-backup root of I2
is F. -/
theorem C5_chain_of_full_and_two_incrementals
    (s : Store) (f i1 i2 : String) (rF rI1 rI2 : BackupInfo)
    (hf0 : f ≠ "") (hi10 : i1 ≠ "") (hi20 : i2 ≠ "")
    (hfi1 : f ≠ i1) (hfi2 : f ≠ i2) (h12 : i1 ≠ i2)
    (hF : findInfo s f = some rF) (hFt : rF.backupType = "full")
    (hFp : rF.parentBackupId = "")
    (hI1 : findInfo s i1 = some rI1) (_hI1t : rI1.backupType = "incremental")
    (hI1p : rI1.parentBackupId = f)
    (hI2 : findInfo s i2 = some rI2) (_hI2t : rI2.backupType = "incremental")
    (hI2p : rI2.parentBackupId = i1) :
    getBackupChain s i2 = [i2, i1, f] ∧ getFullBackupId s i2 = f := by
  have h3 : 3 ≤ s.length := by
    have hnd : ([i2, i1, f] : List String).Nodup := by
      simp [List.nodup_cons, h12.symm, hfi2.symm, hfi1.symm]
    have hsub : ([i2, i1, f] : List String) ⊆ s.map Prod.fst := by
      intro x hx
      simp [List.mem_cons] at hx
      rcases hx with rfl | rfl | rfl
      · exact mem_keys_of_findInfo_eq_some hI2
      · exact mem_keys_of_findInfo_eq_some hI1
      · exact mem_keys_of_findInfo_eq_some hF
    have h := (hnd.subperm hsub).length_le
    simpa using h
  obtain ⟨m, hm⟩ : ∃ m, s.length + 1 = m + 1 + 1 + 1 + 1 := ⟨s.length - 3, by omega⟩
  have hchain : getBackupChain s i2 = [i2, i1, f] := by
    unfold getBackupChain
    rw [hm, chainAux_succ, if_neg hi20, hI2]
    simp only [hI2p, List.not_mem_nil, if_false, ite_false, List.nil_append]
    rw [chainAux_succ, if_neg hi10, hI1]
    simp only [hI1p, List.mem_singleton, if_neg (by simpa using hfi2)]
    rw [chainAux_succ, if_neg hf0, hF]
    simp [hFp, hi20.symm, hi10.symm, chainAux_succ]
  refine ⟨hchain, ?_⟩
  unfold getFullBackupId
  rw [hchain]
  simp [List.find?, isFullRecord, hF, hFt]

/-- C5 witness: the theorem at a concrete three-record store. -/
theorem C5_witness :
    getBackupChain
        [("F", mkFullInfo "F"), ("I1", mkIncrementalInfo "I1" "F"),
          ("I2", mkIncrementalInfo "I2" "I1")] "I2" = ["I2", "I1", "F"] ∧
    getFullBackupId
        [("F", mkFullInfo "F"), ("I1", mkIncrementalInfo "I1" "F"),
          ("I2", mkIncrementalInfo "I2" "I1")] "I2" = "F" := by
  exact C5_chain_of_full_and_two_incrementals
    [("F", mkFullInfo "F"), ("I1", mkIncrementalInfo "I1" "F"),
      ("I2", mkIncrementalInfo "I2" "I1")]
    "F" "I1" "I2" (mkFullInfo "F") (mkIncrementalInfo "I1" "F")
    (mkIncrementalInfo "I2" "I1")
    (by decide) (by decide) (by decide) (by decide) (by decide) (by decide)
    (by decide) rfl rfl (by decide) rfl rfl (by decide) rfl rfl

/-! ## C1: the parent id of an incremental backup -/

/-- A file entry as produced by the per-file loop of
`createIncrementalBackup` for the changed file of the one-modified-file
scenario. -/
def modifiedEntry : FileEntry :=
  { relativePath := "a.txt", checksum := "c1", size := 15, lastModified := 200,
    compressed := true, encrypted := false, compressedSize := 7 }

/-- The record `createIncrementalBackup` builds when one prior backup
directory (with its state and metadata files) exists: the new id is "N",
`Utils::generateUUID()` returned the fresh id "U", and one file is backed
up. -/
def defaultOptions : BackupOptions :=
  { sourcePath := "/data", destPath := "/backups" }

def c1Record : BackupInfo :=
  incrementalBackupInfo "N"
    (selectIncrementalParentId ["/backups/backup_20240101_000000"] true true "U")
    2 defaultOptions ["a.txt"] (fun _ => modifiedEntry)

/-- The store after `metadata_->createBackupInfo(backupInfo)` at
BackupManager.cpp line 259, starting from a store holding the prior full
backup "F". -/
def c1Store : Store := (createBackupInfo [("F", mkFullInfo "F")] c1Record).2

/-- C1: the claim says the new incremental record's `parentId` equals the
id of the backup the diff was taken against, so that chain traversal from
the new record reaches that prior backup.  In the code the parent id is a
freshly generated UUID (BackupManager.cpp line 169, whose own comment says
"This should be loaded from metadata"): with prior backup "F" in the store
and fresh UUID "U", the stored record's parent is "U", which resolves to
no record, and the chain from the new record "N" is just ["N"] — it never
reaches "F". -/
theorem C1_parent_id_is_fresh_uuid_not_prior_backup :
    c1Record.parentBackupId = "U" ∧
    findInfo c1Store "U" = none ∧
    getBackupChain c1Store "N" = ["N"] ∧
    "F" ∉ getBackupChain c1Store "N" := by
  decide

/-! ## C2: one modified file, one entry? -/

/-- Previous snapshot generation: `a.txt` at 10 bytes. -/
def c2Previous : Generation :=
  [("a.txt",
    { path := "a.txt", size := 10, lastModified := 100, checksum := "c0",
      isDirectory := false })]

/-- Current snapshot generation: `a.txt` changed to 15 bytes. -/
def c2Current : Generation :=
  [("a.txt",
    { path := "a.txt", size := 15, lastModified := 200, checksum := "c1",
      isDirectory := false })]

/-- The record `createIncrementalBackup` builds for the one-modified-file
scenario (no prior backup directory, so the parent id stays empty). -/
def c2Record : BackupInfo :=
  incrementalBackupInfo "N" "" 2 defaultOptions
    (incrementalFilesToBackup c2Current c2Previous) (fun _ => modifiedEntry)

/-- C2: the claim says a run with exactly one modified file yields a
record with exactly one file entry (changed ∪ new ∪ modified without
duplication).  `getChangedFiles` already returns new and modified files,
and BackupManager.cpp lines 187-190 concatenate it with `getNewFiles` and
`getModifiedFiles` again, so the single modified file appears twice and
the record carries two entries. -/
theorem C2_one_modified_file_gives_two_entries :
    getChangedFiles c2Current c2Previous = ["a.txt"] ∧
    getNewFiles c2Current c2Previous = [] ∧
    getModifiedFiles c2Current c2Previous = ["a.txt"] ∧
    incrementalFilesToBackup c2Current c2Previous = ["a.txt", "a.txt"] ∧
    c2Record.files.length = 2 := by
  decide

/-! ## C3: restore and the transform pipeline -/

/-- An encryptor as set up for a backup with encryption enabled: a 32-byte
key and the IV drawn at construction. -/
def c3State : EncryptorState :=
  { key := List.replicate 32 1, iv := List.replicate 16 0 }

/-- C3: the claim says `restoreBackup` applies the inverse transform
pipeline so the restored content equals the original.  With encryption
enabled the stored file is the `encryptFile` output (tag, IV,
ciphertext), but `restoreFileInternal` (BackupManager.cpp lines 378-395)
only copies bytes — its own comment notes the missing
decompression/decryption — so the restored bytes are the stored bytes,
which differ from the original plaintext [104, 105] (even under an
identity cipher body the tag and IV remain prepended). -/
theorem C3_restore_copies_stored_bytes_verbatim :
    (encryptFile (fun _ _ plaintext => plaintext) c3State [104, 105]).1 =
      some (encryptedFileOutput (List.replicate 16 0) [104, 105]) ∧
    restoreFileInternal (encryptedFileOutput (List.replicate 16 0) [104, 105]) =
      encryptedFileOutput (List.replicate 16 0) [104, 105] ∧
    encryptedFileOutput (List.replicate 16 0) [104, 105] ≠ [104, 105] := by
  decide

/-! ## C9: per-operation initialization vectors -/

/-- The IV field of an encrypted file: the 16 bytes following the 8-byte
tag, exactly what `decryptFileInternal` reads back (Encryptor.cpp lines
392-403). -/
def writtenIV (output : List Nat) : List Nat := (output.drop 8).take 16

/-- The IV field of the encrypted-file layout is the IV it was built
with. -/
theorem writtenIV_encryptedFileOutput (iv body : List Nat)
    (hiv : iv.length = 16) : writtenIV (encryptedFileOutput iv body) = iv := by
  have hdrop : (encryptionHeader ++ (iv ++ body)).drop encryptionHeader.length =
      iv ++ body := List.drop_left _ _
  unfold writtenIV encryptedFileOutput
  rw [List.append_assoc, show (8 : Nat) = encryptionHeader.length from rfl, hdrop, ← hiv]
  exact List.take_left _ _

/-- An identity stand-in for the abstract cipher body, used to instantiate
the encryptor model on concrete data. -/
def idCipher : List Nat → List Nat → List Nat → List Nat := fun _ _ p => p

/-- An encryptor instance after construction and key setup. -/
def c9State : EncryptorState :=
  { key := List.replicate 32 1, iv := List.range 16 }

/-- C9 counterexample: the claim says each encryption operation draws a
fresh IV, so the second operation's IV is not by construction identical to
the first's.  The IV is drawn once in the constructor
(`initializeEncryption`, Encryptor.cpp lines 254-258) and no encryption
path regenerates it, so two consecutive `encryptFile` calls on one
instance write byte-identical IVs into their headers. -/
theorem C9_second_operation_iv_identical_to_first :
    writtenIV ((encryptFile idCipher c9State [1, 2, 3]).1.getD []) =
      writtenIV ((encryptFile idCipher
        (encryptFile idCipher c9State [1, 2, 3]).2 [4, 5]).1.getD []) ∧
    (encryptFile idCipher c9State [1, 2, 3]).2 = c9State := by
  decide

/-- C9 (amended): the IV is generated once at construction and reused
unchanged by every encryption operation on the instance: `encryptFile`
leaves the state intact, and for any two consecutive calls both outputs
carry the instance IV in their header — the IVs are identical by
construction, not fresh per operation. -/
theorem C9_iv_generated_once_and_reused
    (cipherOf : List Nat → List Nat → List Nat → List Nat)
    (st : EncryptorState) (p1 p2 : List Nat)
    (hkey : st.key ≠ []) (hiv : st.iv.length = 16) :
    (encryptFile cipherOf st p1).2 = st ∧
    ∃ o1 o2, (encryptFile cipherOf st p1).1 = some o1 ∧
      (encryptFile cipherOf (encryptFile cipherOf st p1).2 p2).1 = some o2 ∧
      writtenIV o1 = st.iv ∧ writtenIV o2 = st.iv := by
  have hstate : (encryptFile cipherOf st p1).2 = st := by
    simp [encryptFile, hkey]
  refine ⟨hstate, encryptedFileOutput st.iv (cipherOf st.key st.iv p1),
    encryptedFileOutput st.iv (cipherOf st.key st.iv p2), ?_, ?_, ?_, ?_⟩
  · simp [encryptFile, hkey]
  · rw [hstate]
    simp [encryptFile, hkey]
  · exact writtenIV_encryptedFileOutput st.iv _ hiv
  · exact writtenIV_encryptedFileOutput st.iv _ hiv

/-- C9 witness: the amended theorem at the concrete instance. -/
theorem C9_witness :
    (encryptFile idCipher c9State [1]).2 = c9State ∧
    ∃ o1 o2, (encryptFile idCipher c9State [1]).1 = some o1 ∧
      (encryptFile idCipher (encryptFile idCipher c9State [1]).2 [2]).1 = some o2 ∧
      writtenIV o1 = c9State.iv ∧ writtenIV o2 = c9State.iv :=
  C9_iv_generated_once_and_reused idCipher c9State [1] [2] (by decide) (by decide)

end BackupSystem
